import Mathlib

/-
  Verification of the FlashTools library (ATSAM3x8E internal-flash tools)
  against its natural-language specification.

  The development shallowly embeds the C++ code of FlashTools.h /
  FlashTools.cpp into Lean.  Hardware is modelled explicitly:

  * flash and ordinary memory are total functions from byte addresses to
    byte values (Nat → Nat);
  * the memory-mapped EFC registers are modelled by oracle parameters: the
    value a status-register read would deliver, the successive values the
    result register delivers (a stream Nat → Nat, one entry per read), and
    the per-command error flags the command/status exchange would produce;
  * machine integers are Nat; all arithmetic stays far below 2^32 on the
    validated ranges used by the theorems, and the uint16_t temporaries of
    the source never exceed their width there, so plain Nat arithmetic is
    exact.
-/

namespace FlashTools

/-! ## Memory-map and register constants (FlashTools.h) -/

def IFLASH0_ADDR : Nat := 0x00080000

def IFLASH1_ADDR : Nat := 0x000C0000

def IROM_ADDR : Nat := 0x00100000

def IFLASH0_SIZE : Nat := IFLASH1_ADDR - IFLASH0_ADDR

def IFLASH1_SIZE : Nat := IFLASH0_SIZE

def IFLASH_ADDR : Nat := IFLASH0_ADDR

def IFLASH_PAGE_SIZE : Nat := 256

def IFLASH_NB_OF_PAGES : Nat := 1024

def IFLASH_LOCK_REGION_PAGES : Nat := 64

def IFLASH_WORD_SIZE : Nat := 4

def IFLASH_LOCK_REGION_SIZE : Nat := IFLASH_PAGE_SIZE * IFLASH_LOCK_REGION_PAGES

def IFLASH_WORDS_PER_PAGE : Nat := IFLASH_PAGE_SIZE / IFLASH_WORD_SIZE

def IFLASH_LAST_PAGE_ADDRESS : Nat := IFLASH1_ADDR + IFLASH1_SIZE - IFLASH_PAGE_SIZE

def CHIP_FLASH_WAIT_STATE : Nat := 6

def UNIQUE_ID_SIZE : Nat := 4

def FLASH_DESCRIPTOR_SIZE : Nat := 4

def EEFC_FSR_FRDY : Nat := 1

def EEFC_FSR_FCMDE : Nat := 2

def EEFC_FSR_FLOCKE : Nat := 4

def EEFC_ERROR_FLAGS : Nat := EEFC_FSR_FLOCKE ||| EEFC_FSR_FCMDE

def FWP_KEY : Nat := 0x5A

def EFC_FCMD_GETD : Nat := 0x00

def EFC_FCMD_WP : Nat := 0x01

def EFC_FCMD_WPL : Nat := 0x02

def EFC_FCMD_EWP : Nat := 0x03

def EFC_FCMD_EWPL : Nat := 0x04

def EFC_FCMD_SLB : Nat := 0x08

def EFC_FCMD_CLB : Nat := 0x09

def EFC_FCMD_GLB : Nat := 0x0A

def EFC_FCMD_SGPB : Nat := 0x0B

def EFC_FCMD_CGPB : Nat := 0x0C

def EFC_FCMD_GGPB : Nat := 0x0D

def EFC_FCMD_STUI : Nat := 0x0E

def EFC_FCMD_SPUI : Nat := 0x0F

/-! ## Return codes (enum ReturnCodes) -/

def SUCCESS : Nat := 0

def ERROR : Nat := 0x10

def INVALID : Nat := 0xFFFFFFFF

def BIT_IS_SET : Nat := 1

def BIT_IS_CLEARED : Nat := 0

/-! ## FlashTools::read (FlashTools.h)

  Embedding of the template function
    read(addr) = addr > IFLASH_LAST_PAGE_ADDRESS + IFLASH_PAGE_SIZE ||
                 addr < IFLASH0_ADDR ? INVALID : *addr.
  The dereference is modelled by looking the address up in a total memory
  function. -/

def read (mem : Nat → Nat) (addr : Nat) : Nat :=
  if addr > IFLASH_LAST_PAGE_ADDRESS + IFLASH_PAGE_SIZE ∨ addr < IFLASH0_ADDR then INVALID
  else mem addr

/-! ## FlashTools::cmd (FlashTools.cpp)

  The EEFC_FCR_Type union lays out FCMD in bits 0-7, FARG in bits 8-23 and
  FKEY in bits 24-31; bitfield assignment truncates each stored value to
  its field width.  cmd fills FCMD with the command, FKEY with FWP_KEY and
  FARG with the argument, hands the word to the IAP routine, and returns
  the status register masked with EEFC_ERROR_FLAGS.  The status register
  value the hardware would deliver is the oracle parameter fsr; the
  function returns the pair (command word passed to IAP, return value). -/

def cmdWord (c arg : Nat) : Nat :=
  c % 2 ^ 8 + arg % 2 ^ 16 * 2 ^ 8 + FWP_KEY * 2 ^ 24

def cmd (fsr c arg : Nat) : Nat × Nat :=
  (cmdWord c arg, fsr &&& EEFC_ERROR_FLAGS)

/-! ### Helper lemmas about the error-flag mask -/

lemma and_seven (n : Nat) : n &&& 7 = n % 8 :=
  Nat.and_pow_two_sub_one_eq_mod n 3

lemma and_six (n : Nat) : n &&& 6 = 2 * (n / 2 % 2) + 4 * (n / 4 % 2) := by
  have h1 : n &&& 6 = n % 8 &&& 6 := by
    have h2 : (6 : Nat) = 7 &&& 6 := by decide
    calc n &&& 6 = n &&& (7 &&& 6) := by rw [← h2]
    _ = n &&& 7 &&& 6 := (Nat.and_assoc n 7 6).symm
    _ = n % 8 &&& 6 := by rw [and_seven]
  rw [h1]
  have h3 : n % 8 < 8 := Nat.mod_lt _ (by norm_num)
  have h4 : n / 2 % 2 = n % 8 / 2 % 2 := by omega
  have h5 : n / 4 % 2 = n % 8 / 4 % 2 := by omega
  rw [h4, h5]
  interval_cases h : (n % 8) <;> decide

/-- Claim C7: for every command code c and argument a (within field width),
cmd passes to the IAP routine a 32-bit word whose bits 0-7 equal c, bits
8-23 equal a and bits 24-31 equal the write-protection key 0x5A, and
returns the status register masked to exactly the command-error (bit 1)
and lock-error (bit 2) flags, so the return value is 0 exactly when both
flags are clear. -/
theorem cmd_keyed_word_and_error_mask (c a fsr : Nat) (hc : c < 2 ^ 8) (ha : a < 2 ^ 16) :
    (cmd fsr c a).1 % 2 ^ 8 = c ∧
    (cmd fsr c a).1 / 2 ^ 8 % 2 ^ 16 = a ∧
    (cmd fsr c a).1 / 2 ^ 24 = FWP_KEY ∧
    (cmd fsr c a).2 = 2 * (fsr / 2 % 2) + 4 * (fsr / 4 % 2) ∧
    ((cmd fsr c a).2 = 0 ↔ fsr / 2 % 2 = 0 ∧ fsr / 4 % 2 = 0) := by
  have hw : (cmd fsr c a).1 = c + a * 2 ^ 8 + FWP_KEY * 2 ^ 24 := by
    simp only [cmd, cmdWord]
    rw [Nat.mod_eq_of_lt hc, Nat.mod_eq_of_lt ha]
  have hmask : (cmd fsr c a).2 = 2 * (fsr / 2 % 2) + 4 * (fsr / 4 % 2) := by
    simp only [cmd]
    have : EEFC_ERROR_FLAGS = 6 := by decide
    rw [this, and_six]
  refine ⟨?_, ?_, ?_, hmask, ?_⟩
  · rw [hw]; simp only [FWP_KEY]; omega
  · rw [hw]; simp only [FWP_KEY]; omega
  · rw [hw]; simp only [FWP_KEY]; omega
  · rw [hmask]; omega

/-- Witness for C7 at command EWP (0x03), argument 5, status 4: the word
decomposes as claimed and the lock-error flag alone makes the result 4. -/
theorem cmd_keyed_word_and_error_mask_at_ewp :
    (cmd 4 3 5).1 % 2 ^ 8 = 3 ∧ (cmd 4 3 5).1 / 2 ^ 8 % 2 ^ 16 = 5 ∧
    (cmd 4 3 5).1 / 2 ^ 24 = FWP_KEY ∧ (cmd 4 3 5).2 = 4 := by
  obtain ⟨h1, h2, h3, h4, _⟩ := cmd_keyed_word_and_error_mask 3 5 4 (by norm_num) (by norm_num)
  exact ⟨h1, h2, h3, by rw [h4]⟩

/-! ## FlashTools::islocked (FlashTools.cpp)

  The get-lock-bits command populates a sequential stream of 32-bit words
  behind the result register; the oracle parameter stream gives the value
  of the i-th result-register read (0-indexed).  glbRes is the value the
  keyed GLB command exchange returns (0 on success).

  bankBase, pageOf and regionOf mirror the address-to-region arithmetic at
  the top of islocked; the page numbers are uint16_t in the source, hence
  the explicit truncation modulo 2^16 in pageOf.  skipLoop mirrors the first for loop (skipping whole 32-bit
  groups before the one containing start_region) and countLoop the second
  (counting set bits, re-reading a group when the bit cursor wraps).  Both
  loops also thread readIdx, the number of result-register reads consumed
  so far, so that theorems can speak about how many reads occur.  The test
  stat & (1 << bit) is embedded as Nat.testBit stat bit. -/

def bankBase (start_addr : Nat) : Nat :=
  if start_addr ≥ IFLASH1_ADDR then IFLASH1_ADDR else IFLASH0_ADDR

def pageOf (base a : Nat) : Nat :=
  (a - base) / IFLASH_PAGE_SIZE % 2 ^ 16

def regionOf (base a : Nat) : Nat :=
  pageOf base a / (IFLASH_LOCK_REGION_SIZE / IFLASH_PAGE_SIZE)

def skipLoop (stream : Nat → Nat) (sr involved readIdx stat : Nat) : Nat × Nat × Nat :=
  if h1 : involved ≤ sr ∧ sr < involved + 32 then (stat, involved, readIdx)
  else if h2 : sr < involved then
    -- on such a state the source loop would spin forever; it is
    -- unreachable from the initial state involved = 0
    (stat, involved, readIdx)
  else skipLoop stream sr (involved + 32) (readIdx + 1) (stream readIdx)
termination_by sr - involved
decreasing_by omega

def countLoop (stream : Nat → Nat) : (stat bit readIdx idx acc : Nat) → Nat × Nat
  | _, _, readIdx, 0, acc => (acc, readIdx)
  | stat, bit, readIdx, idx + 1, acc =>
    let acc' := if stat.testBit bit then acc + 1 else acc
    if bit + 1 = 32 then countLoop stream (stream readIdx) 0 (readIdx + 1) idx acc'
    else countLoop stream stat (bit + 1) readIdx idx acc'

def islockedAux (glbRes : Nat) (stream : Nat → Nat) (start_addr end_addr : Nat) :
    Nat × Nat :=
  let base := bankBase start_addr
  let start_region := regionOf base start_addr
  let end_region := regionOf base end_addr
  if glbRes ≠ 0 then (glbRes, 0)
  else
    let s := skipLoop stream start_region 0 1 (stream 0)
    countLoop stream s.1 (start_region - s.2.1) s.2.2 (end_region - start_region + 1) 0

def islocked (glbRes : Nat) (stream : Nat → Nat) (start_addr end_addr : Nat) : Nat :=
  (islockedAux glbRes stream start_addr end_addr).1

/-! ### Loop lemmas for islocked -/

lemma skipLoop_spec (stream : Nat → Nat) (sr : Nat) :
    ∀ n k, sr - 32 * k = n → 32 * k ≤ sr →
      skipLoop stream sr (32 * k) (k + 1) (stream k) =
        (stream (sr / 32), 32 * (sr / 32), sr / 32 + 1) := by
  intro n
  induction n using Nat.strong_induction_on with
  | _ n ih =>
    intro k hn hk
    rw [skipLoop]
    by_cases hstop : sr < 32 * k + 32
    · rw [dif_pos ⟨hk, hstop⟩]
      have hdiv : sr / 32 = k := by omega
      rw [hdiv]
    · rw [dif_neg (by omega), dif_neg (by omega)]
      have h1 : 32 * k + 32 = 32 * (k + 1) := by ring
      have h2 : (k + 1) + 1 = (k + 1) + 1 := rfl
      rw [h1]
      exact ih (sr - 32 * (k + 1)) (by omega) (k + 1) rfl (by omega)

lemma countLoop_spec (stream : Nat → Nat) :
    ∀ idx r acc, countLoop stream (stream (r / 32)) (r % 32) (r / 32 + 1) idx acc =
      (acc + ∑ j in Finset.range idx,
        (if (stream ((r + j) / 32)).testBit ((r + j) % 32) then 1 else 0),
       (r + idx) / 32 + 1) := by
  intro idx
  induction idx with
  | zero => intro r acc; simp [countLoop]
  | succ n ih =>
    intro r acc
    rw [countLoop]
    have hsum : (acc + ∑ j in Finset.range (n + 1),
        (if (stream ((r + j) / 32)).testBit ((r + j) % 32) then 1 else 0)) =
        (if (stream (r / 32)).testBit (r % 32) then acc + 1 else acc) +
          ∑ j in Finset.range n,
            (if (stream ((r + 1 + j) / 32)).testBit ((r + 1 + j) % 32) then 1 else 0) := by
      rw [Finset.sum_range_succ']
      have hcg : (∑ j in Finset.range n,
          (if (stream ((r + (j + 1)) / 32)).testBit ((r + (j + 1)) % 32) then 1 else 0)) =
          ∑ j in Finset.range n,
            (if (stream ((r + 1 + j) / 32)).testBit ((r + 1 + j) % 32) then 1 else 0) :=
        Finset.sum_congr rfl (fun j _ => by rw [show r + (j + 1) = r + 1 + j by ring])
      rw [hcg]
      simp only [Nat.add_zero]
      by_cases hb : (stream (r / 32)).testBit (r % 32) = true
      · simp only [if_pos hb]; omega
      · simp only [if_neg hb]; omega
    by_cases hwrap : r % 32 + 1 = 32
    · have h1 : stream (r / 32 + 1) = stream ((r + 1) / 32) := by congr 1; omega
      have h2 : (0 : Nat) = (r + 1) % 32 := by omega
      have h3 : r / 32 + 1 + 1 = (r + 1) / 32 + 1 := by omega
      have ih' := ih (r + 1) (if (stream (r / 32)).testBit (r % 32) then acc + 1 else acc)
      rw [← h1, ← h2, ← h3] at ih'
      rw [if_pos hwrap, ih', Prod.mk.injEq]
      refine ⟨hsum.symm, ?_⟩
      have h4 : r + 1 + n = r + (n + 1) := by ring
      rw [h4]
    · have h1 : stream (r / 32) = stream ((r + 1) / 32) := by congr 1; omega
      have h2 : r % 32 + 1 = (r + 1) % 32 := by omega
      have h3 : r / 32 + 1 = (r + 1) / 32 + 1 := by omega
      have ih' := ih (r + 1) (if (stream (r / 32)).testBit (r % 32) then acc + 1 else acc)
      rw [← h1, ← h2, ← h3] at ih'
      rw [if_neg hwrap, ih', Prod.mk.injEq]
      refine ⟨hsum.symm, ?_⟩
      have h4 : r + 1 + n = r + (n + 1) := by ring
      rw [h4]

/-- Claim C2: when the get-lock-bits command succeeds, islocked over a
region range start_region..end_region (computed from the addresses, with
the bank base taken from start_addr) returns exactly the number of set
lock bits among those regions, region r being bit r mod 32 of the r/32-th
32-bit result read; the loop consumes (end_region+1)/32 + 1 sequential
result reads in total, hence at least two whenever the range straddles a
32-bit group boundary. -/
theorem islocked_counts_set_bits (glbRes : Nat) (stream : Nat → Nat) (sa ea : Nat)
    (hglb : glbRes = 0) (hbase : bankBase sa ≤ sa) (hle : sa ≤ ea)
    (hfit : (ea - bankBase sa) / IFLASH_PAGE_SIZE < 2 ^ 16) :
    islocked glbRes stream sa ea =
      ∑ r in Finset.Icc (regionOf (bankBase sa) sa) (regionOf (bankBase sa) ea),
        (if (stream (r / 32)).testBit (r % 32) then 1 else 0) ∧
    (islockedAux glbRes stream sa ea).2 = (regionOf (bankBase sa) ea + 1) / 32 + 1 ∧
    (regionOf (bankBase sa) sa / 32 < regionOf (bankBase sa) ea / 32 →
      2 ≤ (islockedAux glbRes stream sa ea).2) := by
  subst hglb
  set base := bankBase sa with hbasedef
  set sr := regionOf base sa with hsr
  set er := regionOf base ea with her
  have hsrer : sr ≤ er := by
    rw [hsr, her]
    simp only [regionOf, pageOf, IFLASH_PAGE_SIZE, IFLASH_LOCK_REGION_SIZE,
      IFLASH_LOCK_REGION_PAGES] at hfit ⊢
    omega
  have hskip : skipLoop stream sr 0 1 (stream 0) =
      (stream (sr / 32), 32 * (sr / 32), sr / 32 + 1) := by
    have := skipLoop_spec stream sr (sr - 32 * 0) 0 rfl (by omega)
    simpa using this
  have hsub : sr - 32 * (sr / 32) = sr % 32 := by omega
  have haux : islockedAux 0 stream sa ea =
      countLoop stream (stream (sr / 32)) (sr % 32) (sr / 32 + 1) (er - sr + 1) 0 := by
    simp only [islockedAux, ← hbasedef, ← hsr, ← her, ne_eq, not_true_eq_false,
      if_false, hskip, hsub]
  have hcount := countLoop_spec stream (er - sr + 1) sr 0
  have hfull : islockedAux 0 stream sa ea =
      (∑ j in Finset.range (er - sr + 1),
        (if (stream ((sr + j) / 32)).testBit ((sr + j) % 32) then 1 else 0),
       (er + 1) / 32 + 1) := by
    rw [haux, hcount]
    have h1 : sr + (er - sr + 1) = er + 1 := by omega
    rw [h1, Nat.zero_add]
  have hsum : (∑ r in Finset.Icc sr er,
        (if (stream (r / 32)).testBit (r % 32) then 1 else 0)) =
      ∑ j in Finset.range (er - sr + 1),
        (if (stream ((sr + j) / 32)).testBit ((sr + j) % 32) then 1 else 0) := by
    rw [← Nat.Ico_succ_right,
      Finset.sum_Ico_eq_sum_range (fun r => if (stream (r / 32)).testBit (r % 32) then 1 else 0) sr (er + 1)]
    have h2 : er + 1 - sr = er - sr + 1 := by omega
    rw [h2]
  refine ⟨?_, ?_, ?_⟩
  · simp only [islocked]
    rw [hfull, hsum]
  · rw [hfull]
  · intro hstrad
    rw [hfull]
    show 2 ≤ (er + 1) / 32 + 1
    omega

/-- Witness for C2: regions 30 through 34 (start address in the grid of
bank-1-based region indices), with lock bits set for regions 30, 31, 32
and 34: islocked reports 4 locked regions and consumes exactly two 32-bit
result reads. -/
theorem islocked_counts_set_bits_at_straddle :
    islocked 0 (fun i => if i = 0 then 0xC0000000 else 5) 0x00138000 0x00148000 = 4 ∧
    (islockedAux 0 (fun i => if i = 0 then 0xC0000000 else 5) 0x00138000 0x00148000).2 = 2 := by
  obtain ⟨h1, h2, _⟩ := islocked_counts_set_bits 0
    (fun i => if i = 0 then 0xC0000000 else 5) 0x00138000 0x00148000 rfl (by decide)
    (by norm_num) (by decide)
  constructor
  · rw [h1]; decide
  · rw [h2]; decide

/-! ## FlashTools::getFlashDescriptor and the descriptor getters
  (FlashTools.cpp)

  The member array flash_descriptor has FLASH_DESCRIPTOR_SIZE + 1 = 5
  slots; slot 4 holds the address tag of the single-entry cache (the
  constructor initialises it to 0xFFFFFFFF).  It is modelled as a total
  function Nat → Nat read at indices 0..4.  getFlashDescriptor rejects
  addr > IFLASH_LAST_PAGE_ADDRESS, issues the GETD command (outcome:
  oracle getdRes), reads up to four result-register values (oracle frr,
  indexed by read number), stopping early at a zero value, and finally
  stores addr into slot 4.  The Bool in the result tells whether a
  non-null pointer was returned. -/

def updateFn (f : Nat → Nat) (i v : Nat) : Nat → Nat :=
  fun j => if j = i then v else f j

def descLoop (frr : Nat → Nat) (i : Nat) (fd : Nat → Nat) : Nat → Nat :=
  if h : i < FLASH_DESCRIPTOR_SIZE ∧ frr i ≠ 0 then
    descLoop frr (i + 1) (updateFn fd i (frr i))
  else fd
termination_by FLASH_DESCRIPTOR_SIZE - i
decreasing_by omega

def getFlashDescriptor (getdRes : Nat) (frr : Nat → Nat) (fd : Nat → Nat) (addr : Nat) :
    Bool × (Nat → Nat) :=
  if addr > IFLASH_LAST_PAGE_ADDRESS then (false, fd)
  else if getdRes ≠ 0 then (false, fd)
  else (true, updateFn (descLoop frr 0 fd) FLASH_DESCRIPTOR_SIZE addr)

/-- descGetter is the shared shape of the seven getters: return sel of the
cached array when the tag (slot 4) matches addr, otherwise fetch the
descriptor and return sel of the updated array on success or INVALID on
failure.  The second component is the flash_descriptor array after the
call. -/
def descGetter (sel : (Nat → Nat) → Nat) (getdRes : Nat) (frr : Nat → Nat)
    (fd : Nat → Nat) (addr : Nat) : Nat × (Nat → Nat) :=
  if fd FLASH_DESCRIPTOR_SIZE = addr then (sel fd, fd)
  else
    match getFlashDescriptor getdRes frr fd addr with
    | (true, fd2) => (sel fd2, fd2)
    | (false, fd2) => (INVALID, fd2)

def getFlashId (getdRes : Nat) (frr fd : Nat → Nat) (addr : Nat) : Nat × (Nat → Nat) :=
  descGetter (fun f => f 0) getdRes frr fd addr

def getFlashSize (getdRes : Nat) (frr fd : Nat → Nat) (addr : Nat) : Nat × (Nat → Nat) :=
  descGetter (fun f => f 1) getdRes frr fd addr

def getPageSize (getdRes : Nat) (frr fd : Nat → Nat) (addr : Nat) : Nat × (Nat → Nat) :=
  descGetter (fun f => f 2) getdRes frr fd addr

def getRegionCount (getdRes : Nat) (frr fd : Nat → Nat) (addr : Nat) : Nat × (Nat → Nat) :=
  descGetter (fun f => f 3) getdRes frr fd addr

def getRegionSize (getdRes : Nat) (frr fd : Nat → Nat) (addr : Nat) : Nat × (Nat → Nat) :=
  descGetter (fun f => f 4) getdRes frr fd addr

def getPageCount (getdRes : Nat) (frr fd : Nat → Nat) (addr : Nat) : Nat × (Nat → Nat) :=
  descGetter (fun f => f 1 / f 2) getdRes frr fd addr

def getPageCountPerRegion (getdRes : Nat) (frr fd : Nat → Nat) (addr : Nat) :
    Nat × (Nat → Nat) :=
  descGetter (fun f => f 4 / f 2) getdRes frr fd addr

/-- initialFlashDescriptor is the array state the constructor leaves:
slots 0..3 zero and the tag slot 4 set to 0xFFFFFFFF. -/
def initialFlashDescriptor : Nat → Nat :=
  fun j => if j = FLASH_DESCRIPTOR_SIZE then 0xFFFFFFFF else 0

lemma descGetter_reject (sel : (Nat → Nat) → Nat) (getdRes : Nat) (frr fd : Nat → Nat)
    (addr : Nat) (h1 : IFLASH_LAST_PAGE_ADDRESS < addr)
    (h2 : fd FLASH_DESCRIPTOR_SIZE ≠ addr) :
    descGetter sel getdRes frr fd addr = (INVALID, fd) := by
  rw [descGetter, if_neg h2, getFlashDescriptor, if_pos h1]

/-- Claim C5 (amended): for every address strictly above the last page
base address whose value differs from the current cache tag, every
descriptor getter returns the INVALID sentinel and leaves the descriptor
cache, fields and address tag alike, unchanged.  (The code does not
validate addresses below the first bank base, and an address equal to the
tag is served from the cache without validation; see the counterexample.) -/
theorem desc_getters_reject_above_last_page (getdRes : Nat) (frr fd : Nat → Nat)
    (addr : Nat) (h1 : IFLASH_LAST_PAGE_ADDRESS < addr)
    (h2 : fd FLASH_DESCRIPTOR_SIZE ≠ addr) :
    getFlashId getdRes frr fd addr = (INVALID, fd) ∧
    getFlashSize getdRes frr fd addr = (INVALID, fd) ∧
    getPageSize getdRes frr fd addr = (INVALID, fd) ∧
    getRegionCount getdRes frr fd addr = (INVALID, fd) ∧
    getRegionSize getdRes frr fd addr = (INVALID, fd) ∧
    getPageCount getdRes frr fd addr = (INVALID, fd) ∧
    getPageCountPerRegion getdRes frr fd addr = (INVALID, fd) :=
  ⟨descGetter_reject _ _ _ _ _ h1 h2, descGetter_reject _ _ _ _ _ h1 h2,
   descGetter_reject _ _ _ _ _ h1 h2, descGetter_reject _ _ _ _ _ h1 h2,
   descGetter_reject _ _ _ _ _ h1 h2, descGetter_reject _ _ _ _ _ h1 h2,
   descGetter_reject _ _ _ _ _ h1 h2⟩

/-- Witness for C5 (amended) at address 0x00100000 (above the last page
base 0x000FFF00) on the freshly constructed cache. -/
theorem desc_getters_reject_at_rom_base :
    getFlashId 0 (fun i => i + 1) initialFlashDescriptor 0x00100000 =
      (INVALID, initialFlashDescriptor) ∧
    getRegionSize 0 (fun i => i + 1) initialFlashDescriptor 0x00100000 =
      (INVALID, initialFlashDescriptor) :=
  ⟨(desc_getters_reject_above_last_page 0 (fun i => i + 1) initialFlashDescriptor
      0x00100000 (by decide) (by decide)).1,
   (desc_getters_reject_above_last_page 0 (fun i => i + 1) initialFlashDescriptor
      0x00100000 (by decide) (by decide)).2.2.2.2.1⟩

/-- Counterexample for C5: address 0 lies outside the combined bank range
(below the first bank base 0x00080000), yet on the fresh cache with a
successful command exchange getFlashId(0) does not return INVALID (it
returns the first word read, here 1) and the cache is mutated: its tag
becomes 0, no longer the initial 0xFFFFFFFF. -/
theorem desc_getter_accepts_low_address :
    (getFlashId 0 (fun i => i + 1) initialFlashDescriptor 0).1 = 1 ∧
    (getFlashId 0 (fun i => i + 1) initialFlashDescriptor 0).1 ≠ INVALID ∧
    (getFlashId 0 (fun i => i + 1) initialFlashDescriptor 0).2 FLASH_DESCRIPTOR_SIZE = 0 := by
  have h : getFlashId 0 (fun i => i + 1) initialFlashDescriptor 0 =
      (1, updateFn (descLoop (fun i => i + 1) 0 initialFlashDescriptor)
        FLASH_DESCRIPTOR_SIZE 0) := by
    rw [getFlashId, descGetter, if_neg (by decide), getFlashDescriptor,
      if_neg (by decide), if_neg (by decide)]
    rw [descLoop, dif_pos (by decide), descLoop, dif_pos (by decide),
      descLoop, dif_pos (by decide), descLoop, dif_pos (by decide),
      descLoop, dif_neg (by decide)]
    rfl
  rw [h]
  refine ⟨rfl, by decide, rfl⟩

/-- Claim C6 (code behaviour at the failing input): whenever the
descriptor fetch path succeeds (address not above the last page, command
successful), getRegionSize returns the queried address itself — slot 4 of
the array, which getFlashDescriptor has just overwritten with the cache
tag — rather than any region-size field read from the result register;
getPageCountPerRegion likewise returns addr divided by the page-size
field.  Only four result words are ever read, so no region-size field is
stored at all. -/
theorem getRegionSize_returns_queried_address (frr fd : Nat → Nat) (addr : Nat)
    (h1 : addr ≤ IFLASH_LAST_PAGE_ADDRESS) (h2 : fd FLASH_DESCRIPTOR_SIZE ≠ addr) :
    (getRegionSize 0 frr fd addr).1 = addr ∧
    (getPageCountPerRegion 0 frr fd addr).1 =
      addr / descLoop frr 0 fd 2 := by
  have hfetch : getFlashDescriptor 0 frr fd addr =
      (true, updateFn (descLoop frr 0 fd) FLASH_DESCRIPTOR_SIZE addr) := by
    rw [getFlashDescriptor, if_neg (by omega), if_neg (by omega)]
  have htag : updateFn (descLoop frr 0 fd) FLASH_DESCRIPTOR_SIZE addr 4 = addr := by
    rw [updateFn]
    simp [FLASH_DESCRIPTOR_SIZE]
  have hfield2 : updateFn (descLoop frr 0 fd) FLASH_DESCRIPTOR_SIZE addr 2 =
      descLoop frr 0 fd 2 := by
    rw [updateFn]
    simp [FLASH_DESCRIPTOR_SIZE]
  constructor
  · rw [getRegionSize, descGetter, if_neg h2, hfetch]
    exact htag
  · rw [getPageCountPerRegion, descGetter, if_neg h2, hfetch]
    show updateFn (descLoop frr 0 fd) FLASH_DESCRIPTOR_SIZE addr 4 /
      updateFn (descLoop frr 0 fd) FLASH_DESCRIPTOR_SIZE addr 2 = _
    rw [htag, hfield2]

/-- Witness for C6: a successful fetch for bank-0 base address 0x00080000
with descriptor words 0x28Ax, 0x40000, 0x100, 1 on the result stream makes
getRegionSize return 0x00080000 — the address echoed back, not a
region-size field. -/
theorem getRegionSize_returns_queried_address_at_bank0 :
    (getRegionSize 0 (fun i => i + 1) initialFlashDescriptor 0x00080000).1 = 0x00080000 :=
  (getRegionSize_returns_queried_address (fun i => i + 1) initialFlashDescriptor
    0x00080000 (by decide) (by decide)).1

/-! ## GPNVM bit operations (FlashTools.cpp)

  Each operation issues the GGPB command (return value: oracle ggpbRes),
  on success tests a bit of the result register (oracle frr), and when the
  bit is not yet in the desired state issues one SGPB/CGPB programming
  command (return value: oracle progRes).  Each model returns the final
  return value together with the list of (command, argument) pairs issued,
  in order. -/

def setSecurityBit (ggpbRes frr progRes : Nat) : Nat × List (Nat × Nat) :=
  if ggpbRes = SUCCESS ∧ frr.testBit 0 then (SUCCESS, [(EFC_FCMD_GGPB, 0)])
  else (progRes, [(EFC_FCMD_GGPB, 0), (EFC_FCMD_SGPB, 0)])

def setBootModeSAMBA (ggpbRes frr progRes : Nat) : Nat × List (Nat × Nat) :=
  if ggpbRes = SUCCESS ∧ ¬frr.testBit 1 then (SUCCESS, [(EFC_FCMD_GGPB, 0)])
  else (progRes, [(EFC_FCMD_GGPB, 0), (EFC_FCMD_CGPB, 1)])

def setBootModeFlash (ggpbRes frr progRes : Nat) : Nat × List (Nat × Nat) :=
  if ggpbRes = SUCCESS ∧ frr.testBit 1 then (SUCCESS, [(EFC_FCMD_GGPB, 0)])
  else (progRes, [(EFC_FCMD_GGPB, 0), (EFC_FCMD_SGPB, 1)])

def setBootFlash0 (ggpbRes frr progRes : Nat) : Nat × List (Nat × Nat) :=
  if ggpbRes = SUCCESS ∧ ¬frr.testBit 2 then (SUCCESS, [(EFC_FCMD_GGPB, 0)])
  else (progRes, [(EFC_FCMD_GGPB, 0), (EFC_FCMD_CGPB, 2)])

def setBootFlash1 (ggpbRes frr progRes : Nat) : Nat × List (Nat × Nat) :=
  if ggpbRes = SUCCESS ∧ frr.testBit 2 then (SUCCESS, [(EFC_FCMD_GGPB, 0)])
  else (progRes, [(EFC_FCMD_GGPB, 0), (EFC_FCMD_SGPB, 2)])

/-- progCmds filters an issued-command list down to the set/clear GPNVM
programming commands. -/
def progCmds (l : List (Nat × Nat)) : List (Nat × Nat) :=
  l.filter (fun e => e.1 == EFC_FCMD_SGPB || e.1 == EFC_FCMD_CGPB)

/-- Claim C9: each GPNVM set/clear operation, when the get command
succeeds and the targeted bit already has the desired value, returns
success having issued no programming command; in every other case it
issues exactly one programming command carrying the bit index and returns
that command's status. -/
theorem gpnvm_ops_idempotent (g frr p : Nat) :
    ((g = SUCCESS ∧ frr.testBit 0) →
      setSecurityBit g frr p = (SUCCESS, [(EFC_FCMD_GGPB, 0)]) ∧
      progCmds (setSecurityBit g frr p).2 = []) ∧
    (¬(g = SUCCESS ∧ frr.testBit 0) →
      (setSecurityBit g frr p).1 = p ∧
      progCmds (setSecurityBit g frr p).2 = [(EFC_FCMD_SGPB, 0)]) ∧
    ((g = SUCCESS ∧ ¬frr.testBit 1) →
      setBootModeSAMBA g frr p = (SUCCESS, [(EFC_FCMD_GGPB, 0)]) ∧
      progCmds (setBootModeSAMBA g frr p).2 = []) ∧
    (¬(g = SUCCESS ∧ ¬frr.testBit 1) →
      (setBootModeSAMBA g frr p).1 = p ∧
      progCmds (setBootModeSAMBA g frr p).2 = [(EFC_FCMD_CGPB, 1)]) ∧
    ((g = SUCCESS ∧ frr.testBit 1) →
      setBootModeFlash g frr p = (SUCCESS, [(EFC_FCMD_GGPB, 0)]) ∧
      progCmds (setBootModeFlash g frr p).2 = []) ∧
    (¬(g = SUCCESS ∧ frr.testBit 1) →
      (setBootModeFlash g frr p).1 = p ∧
      progCmds (setBootModeFlash g frr p).2 = [(EFC_FCMD_SGPB, 1)]) ∧
    ((g = SUCCESS ∧ ¬frr.testBit 2) →
      setBootFlash0 g frr p = (SUCCESS, [(EFC_FCMD_GGPB, 0)]) ∧
      progCmds (setBootFlash0 g frr p).2 = []) ∧
    (¬(g = SUCCESS ∧ ¬frr.testBit 2) →
      (setBootFlash0 g frr p).1 = p ∧
      progCmds (setBootFlash0 g frr p).2 = [(EFC_FCMD_CGPB, 2)]) ∧
    ((g = SUCCESS ∧ frr.testBit 2) →
      setBootFlash1 g frr p = (SUCCESS, [(EFC_FCMD_GGPB, 0)]) ∧
      progCmds (setBootFlash1 g frr p).2 = []) ∧
    (¬(g = SUCCESS ∧ frr.testBit 2) →
      (setBootFlash1 g frr p).1 = p ∧
      progCmds (setBootFlash1 g frr p).2 = [(EFC_FCMD_SGPB, 2)]) := by
  refine ⟨?_, ?_, ?_, ?_, ?_, ?_, ?_, ?_, ?_, ?_⟩ <;> intro h <;>
    first
    | (rw [setSecurityBit, if_pos h]; exact ⟨rfl, rfl⟩)
    | (rw [setSecurityBit, if_neg h]; exact ⟨rfl, rfl⟩)
    | (rw [setBootModeSAMBA, if_pos h]; exact ⟨rfl, rfl⟩)
    | (rw [setBootModeSAMBA, if_neg h]; exact ⟨rfl, rfl⟩)
    | (rw [setBootModeFlash, if_pos h]; exact ⟨rfl, rfl⟩)
    | (rw [setBootModeFlash, if_neg h]; exact ⟨rfl, rfl⟩)
    | (rw [setBootFlash0, if_pos h]; exact ⟨rfl, rfl⟩)
    | (rw [setBootFlash0, if_neg h]; exact ⟨rfl, rfl⟩)
    | (rw [setBootFlash1, if_pos h]; exact ⟨rfl, rfl⟩)
    | (rw [setBootFlash1, if_neg h]; exact ⟨rfl, rfl⟩)

/-- Witness for C9: with the GGPB exchange succeeding and GPNVM bits
reading as 0b010 (boot-from-flash set, security and boot-bank clear),
setBootModeFlash is a no-command success while setBootFlash1 issues SGPB 2
and reports that command's status 2. -/
theorem gpnvm_ops_idempotent_at_bits_010 :
    setBootModeFlash 0 2 2 = (SUCCESS, [(EFC_FCMD_GGPB, 0)]) ∧
    (setBootFlash1 0 2 2).1 = 2 ∧
    progCmds (setBootFlash1 0 2 2).2 = [(EFC_FCMD_SGPB, 2)] := by
  obtain ⟨-, -, -, -, h5, -, -, -, -, h10⟩ := gpnvm_ops_idempotent 0 2 2
  obtain ⟨h5a, -⟩ := h5 ⟨rfl, by decide⟩
  obtain ⟨h10a, h10b⟩ := h10 (by decide)
  exact ⟨h5a, h10a, h10b⟩

/-! ## FlashTools::getUniqueID (FlashTools.cpp)

  The call takes the caller's buffer (none models a NULL pointer, some b a
  valid buffer with prior contents b) and the member cache uniqueID
  (Nat → Nat, read at indices 0..3).  If the cache's first word is
  non-zero the cached words are copied into the buffer and no hardware is
  touched.  Otherwise the slow path saves the wait state, forces the
  maximum, sets the SCOD bit, writes the STUI command word directly to the
  command register, polls the status register, reads the four ID words
  from the remapped bank window (oracle hwID), writes the SPUI word, polls
  again, clears SCOD, restores the wait state and fills cache and buffer.
  Every hardware interaction is recorded, in order, in the events list;
  the unbounded status polls are each recorded as a single fsrPoll
  event. -/

inductive HwEvent where
  | fmrRead : HwEvent
  | fmrWrite : Nat → HwEvent
  | fcrWrite : Nat → HwEvent
  | fsrPoll : HwEvent
  | flashRead : Nat → HwEvent
deriving DecidableEq

structure UidOut where
  ret : Nat
  ubuf : Option (Nat → Nat)
  uid : Nat → Nat
  fws : Nat
  events : List HwEvent

def stuiWord : Nat := cmdWord EFC_FCMD_STUI 0

def spuiWord : Nat := cmdWord EFC_FCMD_SPUI 0

def getUniqueID (hwID : Nat → Nat) (fws0 : Nat) (uid : Nat → Nat)
    (uBuff : Option (Nat → Nat)) : UidOut :=
  match uBuff with
  | none => ⟨INVALID, none, uid, fws0, []⟩
  | some b =>
    if uid 0 ≠ 0 then
      ⟨SUCCESS, some (fun i => if i < UNIQUE_ID_SIZE then uid i else b i), uid, fws0, []⟩
    else
      ⟨SUCCESS,
       some (fun i => if i < UNIQUE_ID_SIZE then hwID i else b i),
       fun i => if i < UNIQUE_ID_SIZE then hwID i else uid i,
       fws0,
       [HwEvent.fmrRead, HwEvent.fmrWrite CHIP_FLASH_WAIT_STATE,
        HwEvent.fmrRead, HwEvent.fmrWrite CHIP_FLASH_WAIT_STATE,
        HwEvent.fcrWrite stuiWord, HwEvent.fsrPoll,
        HwEvent.flashRead 0, HwEvent.flashRead 1, HwEvent.flashRead 2,
        HwEvent.flashRead 3,
        HwEvent.fcrWrite spuiWord, HwEvent.fsrPoll,
        HwEvent.fmrRead, HwEvent.fmrWrite fws0,
        HwEvent.fmrRead, HwEvent.fmrWrite fws0]⟩

/-- Claim C8: when the cached first word is non-zero, getUniqueID with a
non-null buffer serves the 128-bit value entirely from the cache: no
hardware event occurs, the call succeeds and the cache is unchanged.
Consequently, starting from the cleared cache with a hardware ID whose
first word is non-zero, the start/stop unique-ID command sequence is
issued during the first call only, and two successive calls deliver
byte-identical 128-bit results. -/
theorem getUniqueID_cached_idempotent (hwID : Nat → Nat) (fwsA fwsB : Nat)
    (uid b b2 : Nat → Nat) :
    (uid 0 ≠ 0 →
      (getUniqueID hwID fwsA uid (some b)).events = [] ∧
      (getUniqueID hwID fwsA uid (some b)).ret = SUCCESS ∧
      (getUniqueID hwID fwsA uid (some b)).uid = uid ∧
      (∀ i, i < UNIQUE_ID_SIZE →
        ((getUniqueID hwID fwsA uid (some b)).ubuf.getD b) i = uid i)) ∧
    (hwID 0 ≠ 0 →
      (HwEvent.fcrWrite stuiWord ∈ (getUniqueID hwID fwsA (fun _ => 0) (some b)).events ∧
       HwEvent.fcrWrite spuiWord ∈ (getUniqueID hwID fwsA (fun _ => 0) (some b)).events) ∧
      (getUniqueID hwID fwsB
        (getUniqueID hwID fwsA (fun _ => 0) (some b)).uid (some b2)).events = [] ∧
      (∀ i, i < UNIQUE_ID_SIZE →
        ((getUniqueID hwID fwsB
            (getUniqueID hwID fwsA (fun _ => 0) (some b)).uid (some b2)).ubuf.getD b2) i =
        ((getUniqueID hwID fwsA (fun _ => 0) (some b)).ubuf.getD b) i)) := by
  constructor
  · intro hnz
    rw [getUniqueID]
    rw [if_pos hnz]
    refine ⟨rfl, rfl, rfl, ?_⟩
    intro i hi
    simp only [Option.getD_some]
    rw [if_pos hi]
  · intro hhw
    have hfirst : getUniqueID hwID fwsA (fun _ => 0) (some b) =
        ⟨SUCCESS, some (fun i => if i < UNIQUE_ID_SIZE then hwID i else b i),
         fun i => if i < UNIQUE_ID_SIZE then hwID i else 0,
         fwsA,
         [HwEvent.fmrRead, HwEvent.fmrWrite CHIP_FLASH_WAIT_STATE,
          HwEvent.fmrRead, HwEvent.fmrWrite CHIP_FLASH_WAIT_STATE,
          HwEvent.fcrWrite stuiWord, HwEvent.fsrPoll,
          HwEvent.flashRead 0, HwEvent.flashRead 1, HwEvent.flashRead 2,
          HwEvent.flashRead 3,
          HwEvent.fcrWrite spuiWord, HwEvent.fsrPoll,
          HwEvent.fmrRead, HwEvent.fmrWrite fwsA,
          HwEvent.fmrRead, HwEvent.fmrWrite fwsA]⟩ := by
      rw [getUniqueID, if_neg (by simp)]
    have hcache : (getUniqueID hwID fwsA (fun _ => 0) (some b)).uid 0 ≠ 0 := by
      rw [hfirst]
      show (if 0 < UNIQUE_ID_SIZE then hwID 0 else 0) ≠ 0
      rw [if_pos (by decide)]
      exact hhw
    refine ⟨?_, ?_, ?_⟩
    · rw [hfirst]
      exact ⟨by simp, by simp⟩
    · rw [getUniqueID, if_pos hcache]
    · intro i hi
      rw [getUniqueID, if_pos hcache]
      simp only [Option.getD_some]
      rw [if_pos hi, hfirst]
      show (if i < UNIQUE_ID_SIZE then hwID i else 0) =
        (Option.getD (some fun j => if j < UNIQUE_ID_SIZE then hwID j else b j) b) i
      rw [if_pos hi]
      simp only [Option.getD_some]
      rw [if_pos hi]

/-- Witness for C8 with hardware ID words 1,2,3,4: the warm-cache call
produces no event and returns the cached first word, and the second of two
calls from a cold cache is silent and agrees with the first. -/
theorem getUniqueID_cached_idempotent_at_1234 :
    (getUniqueID (fun i => i + 1) 3 (fun i => i + 1) (some (fun _ => 0))).events = [] ∧
    (getUniqueID (fun i => i + 1) 5
      (getUniqueID (fun i => i + 1) 3 (fun _ => 0) (some (fun _ => 0))).uid
      (some (fun _ => 0))).events = [] ∧
    ((getUniqueID (fun i => i + 1) 5
        (getUniqueID (fun i => i + 1) 3 (fun _ => 0) (some (fun _ => 0))).uid
        (some (fun _ => 0))).ubuf.getD (fun _ => 0)) 0 =
      ((getUniqueID (fun i => i + 1) 3 (fun _ => 0) (some (fun _ => 0))).ubuf.getD
        (fun _ => 0)) 0 := by
  have h1 := (getUniqueID_cached_idempotent (fun i => i + 1) 3 5
    (fun i => i + 1) (fun _ => 0) (fun _ => 0)).1 (by decide)
  have h2 := (getUniqueID_cached_idempotent (fun i => i + 1) 3 5
    (fun _ => 0) (fun _ => 0) (fun _ => 0)).2 (by decide)
  exact ⟨h1.1, h2.2.1, h2.2.2 0 (by decide)⟩

/-- Claim C10: read(addr) returns the INVALID sentinel exactly for
addresses below 0x00080000 or above 0x00100000, and dereferences the
address for every value in between; the accepted window thus extends one
full page past the last page base, up to and including the ROM base. -/
theorem read_window (mem : Nat → Nat) (addr : Nat) :
    ((addr < 0x00080000 ∨ 0x00100000 < addr) → read mem addr = INVALID) ∧
    (0x00080000 ≤ addr → addr ≤ 0x00100000 → read mem addr = mem addr) ∧
    IFLASH_LAST_PAGE_ADDRESS + IFLASH_PAGE_SIZE = IROM_ADDR := by
  refine ⟨?_, ?_, by decide⟩
  · intro h
    simp only [read, IFLASH_LAST_PAGE_ADDRESS, IFLASH_PAGE_SIZE, IFLASH0_ADDR,
      IFLASH1_ADDR, IFLASH1_SIZE, IFLASH0_SIZE]
    rw [if_pos (by omega)]
  · intro h1 h2
    simp only [read, IFLASH_LAST_PAGE_ADDRESS, IFLASH_PAGE_SIZE, IFLASH0_ADDR,
      IFLASH1_ADDR, IFLASH1_SIZE, IFLASH0_SIZE]
    rw [if_neg (by omega)]

/-- Witness for C10: the ROM base address 0x00100000 itself is read (one
byte past the last flash byte), while 0x00100001 is rejected. -/
theorem read_window_at_rom_base :
    read (fun _ => 42) 0x00100000 = 42 ∧ read (fun _ => 42) 0x00100001 = INVALID :=
  ⟨(read_window (fun _ => 42) 0x00100000).2.1 (by norm_num) (by norm_num),
   (read_window (fun _ => 42) 0x00100001).1 (by norm_num)⟩

/-! ## FlashTools::flashcpy and FlashTools::write
  (FlashTools.cpp / FlashTools.h)

  flashcpy fills the static 256-byte page buffer in three memcpy parts —
  offset bytes read back from the flash page, write_size bytes from the
  caller's data, padding_size bytes read back from the flash page after
  the write window — and then stores the whole buffer to the page
  word-wise.  flashPageByte gives the resulting buffer byte at index i;
  bytes beyond the three parts keep the static buffer's previous contents.
  A NULL data pointer (none) or NULL page pointer makes flashcpy return
  early with nothing copied; write ignores flashcpy's returned pointer
  either way, exactly as the source does.

  write validates the address (word alignment and flash range only — the
  data pointer is never checked), consults islocked/unlock (their combined
  outcome is summarised by the oracles lockedRes and unlockRes, since both
  only feed the early-exit test), saves the current wait state fws0,
  forces CHIP_FLASH_WAIT_STATE, and runs the page loop.  cmdRes i is the
  error-flag outcome of the i-th page-programming command (the source
  reads FSR & EEFC_ERROR_FLAGS twice on failure; both reads are modelled
  by the same oracle value).  The cmds field lists the page-programming
  commands issued by the loop as (command code, page number) pairs; the
  fws field is the wait-state field of the targeted controller's mode
  register when the call returns. -/

def flashPageByte (flash buf : Nat → Nat) (data : List Nat)
    (page_address offset write_size padding_size i : Nat) : Nat :=
  if i < offset then flash (page_address + i)
  else if i < offset + write_size then data.getD (i - offset) 0
  else if i < offset + write_size + padding_size then flash (page_address + i)
  else buf i

def flashcpy (flash buf : Nat → Nat) (page_address : Nat)
    (write_data : Option (List Nat)) (offset write_size padding_size : Nat) :
    (Nat → Nat) × (Nat → Nat) :=
  match write_data with
  | none => (flash, buf)
  | some data =>
    if page_address = 0 then (flash, buf)
    else
      (fun a =>
        if page_address ≤ a ∧ a < page_address + IFLASH_PAGE_SIZE then
          flashPageByte flash buf data page_address offset write_size padding_size
            (a - page_address)
        else flash a,
       fun i => flashPageByte flash buf data page_address offset write_size padding_size i)

def writeCmdCode (er lk : Bool) : Nat :=
  if er && lk then EFC_FCMD_EWPL else if er then EFC_FCMD_EWP else EFC_FCMD_WP

structure LoopOut where
  ret : Nat
  flash : Nat → Nat
  buf : Nat → Nat
  cmds : List (Nat × Nat)

def writeLoop (cmdRes : Nat → Nat) (bankStart : Nat) (er lk : Bool)
    (data : Option (List Nat)) (data_size page_num offset iter : Nat)
    (flash buf : Nat → Nat) : LoopOut :=
  if data_size = 0 then ⟨SUCCESS, flash, buf, []⟩
  else if h : IFLASH_PAGE_SIZE ≤ offset then
    -- unreachable: offset is addr mod page size on entry and 0 afterwards;
    -- on such a state the source loop would not terminate
    ⟨SUCCESS, flash, buf, []⟩
  else
    let write_size :=
      if IFLASH_PAGE_SIZE - offset < data_size then IFLASH_PAGE_SIZE - offset else data_size
    let page_address := bankStart + page_num * IFLASH_PAGE_SIZE
    let padding_size := IFLASH_PAGE_SIZE - offset - write_size
    let fb := flashcpy flash buf page_address data offset write_size padding_size
    if cmdRes iter ≠ 0 then ⟨cmdRes iter, fb.1, fb.2, [(writeCmdCode er lk, page_num)]⟩
    else
      let rest := writeLoop cmdRes bankStart er lk (data.map (List.drop write_size))
        (data_size - write_size) (page_num + 1) 0 (iter + 1) fb.1 fb.2
      ⟨rest.ret, rest.flash, rest.buf, (writeCmdCode er lk, page_num) :: rest.cmds⟩
termination_by data_size
decreasing_by
  split <;> omega

structure WriteOut where
  ret : Nat
  flash : Nat → Nat
  buf : Nat → Nat
  fws : Nat
  cmds : List (Nat × Nat)

def write (lockedRes unlockRes : Nat) (cmdRes : Nat → Nat) (fws0 : Nat)
    (addr : Nat) (data : Option (List Nat)) (data_size : Nat) (er lk : Bool)
    (flash buf : Nat → Nat) : WriteOut :=
  if addr ≥ IFLASH_LAST_PAGE_ADDRESS + IFLASH_PAGE_SIZE ∨ addr < IFLASH_ADDR ∨
      addr % 4 ≠ 0 then
    ⟨INVALID, flash, buf, fws0, []⟩
  else if lockedRes ≠ 0 ∧ unlockRes ≠ SUCCESS then
    ⟨ERROR, flash, buf, fws0, []⟩
  else
    let FLASH_START_ADDR := if addr ≥ IFLASH1_ADDR then IFLASH1_ADDR else IFLASH0_ADDR
    let r := writeLoop cmdRes FLASH_START_ADDR er lk data data_size
      ((addr - FLASH_START_ADDR) / IFLASH_PAGE_SIZE)
      ((addr - FLASH_START_ADDR) % IFLASH_PAGE_SIZE) 0 flash buf
    if r.ret = SUCCESS then ⟨SUCCESS, r.flash, r.buf, fws0, r.cmds⟩
    else ⟨r.ret, r.flash, r.buf, CHIP_FLASH_WAIT_STATE, r.cmds⟩

/-! ### Lemmas about flashcpy and the page loop -/

lemma getD_drop (l : List Nat) (n j : Nat) : (l.drop n).getD j 0 = l.getD (n + j) 0 := by
  simp [List.getD_eq_getElem?_getD, List.getElem?_drop]

lemma flashcpy_some_flash (flash buf : Nat → Nat) (pa : Nat) (d : List Nat)
    (offset ws ps : Nat) (hpa : pa ≠ 0) (a : Nat) :
    (flashcpy flash buf pa (some d) offset ws ps).1 a =
      if pa + offset ≤ a ∧ a < pa + offset + ws ∧ a < pa + IFLASH_PAGE_SIZE then
        d.getD (a - pa - offset) 0
      else if pa ≤ a ∧ a < pa + IFLASH_PAGE_SIZE ∧ pa + (offset + ws + ps) ≤ a then
        buf (a - pa)
      else flash a := by
  simp only [flashcpy, if_neg hpa, flashPageByte]
  split_ifs <;>
    first
    | rfl
    | (congr 1; omega)
    | (exfalso; omega)

lemma writeLoop_merge (cmdRes : Nat → Nat) (hcmd : ∀ i, cmdRes i = 0)
    (bankStart : Nat) (hbs : bankStart ≠ 0) (er lk : Bool) :
    ∀ ds (d : List Nat) page_num offset iter (flash buf : Nat → Nat),
      offset < IFLASH_PAGE_SIZE →
      (writeLoop cmdRes bankStart er lk (some d) ds page_num offset iter flash buf).ret
        = SUCCESS ∧
      ∀ a,
        (writeLoop cmdRes bankStart er lk (some d) ds page_num offset iter flash buf).flash a =
          if bankStart + page_num * IFLASH_PAGE_SIZE + offset ≤ a ∧
              a < bankStart + page_num * IFLASH_PAGE_SIZE + offset + ds then
            d.getD (a - (bankStart + page_num * IFLASH_PAGE_SIZE + offset)) 0
          else flash a := by
  intro ds
  induction ds using Nat.strong_induction_on with
  | _ ds ih =>
    intro d page_num offset iter flash buf hoff
    have hpane : bankStart + page_num * IFLASH_PAGE_SIZE ≠ 0 :=
      (Nat.add_pos_left (Nat.pos_of_ne_zero hbs) _).ne'
    by_cases h0 : ds = 0
    · subst h0
      have hw : writeLoop cmdRes bankStart er lk (some d) 0 page_num offset iter flash buf =
          ⟨SUCCESS, flash, buf, []⟩ := by
        rw [writeLoop, if_pos rfl]
      rw [hw]
      exact ⟨rfl, fun a => by rw [if_neg (by omega)]⟩
    · rw [writeLoop, if_neg h0, dif_neg (by omega : ¬IFLASH_PAGE_SIZE ≤ offset)]
      simp only [hcmd, ne_eq, eq_self_iff_true, not_true_eq_false, if_false,
        Option.map_some']
      by_cases hlt : IFLASH_PAGE_SIZE - offset < ds
      · rw [if_pos hlt]
        obtain ⟨ihr, ihf⟩ := ih (ds - (IFLASH_PAGE_SIZE - offset)) (by omega)
          (d.drop (IFLASH_PAGE_SIZE - offset)) (page_num + 1) 0 (iter + 1)
          (flashcpy flash buf (bankStart + page_num * IFLASH_PAGE_SIZE) (some d) offset
            (IFLASH_PAGE_SIZE - offset)
            (IFLASH_PAGE_SIZE - offset - (IFLASH_PAGE_SIZE - offset))).1
          (flashcpy flash buf (bankStart + page_num * IFLASH_PAGE_SIZE) (some d) offset
            (IFLASH_PAGE_SIZE - offset)
            (IFLASH_PAGE_SIZE - offset - (IFLASH_PAGE_SIZE - offset))).2
          (by omega)
        refine ⟨ihr, ?_⟩
        intro a
        rw [ihf a,
          show bankStart + (page_num + 1) * IFLASH_PAGE_SIZE + 0 =
            bankStart + page_num * IFLASH_PAGE_SIZE + IFLASH_PAGE_SIZE from by ring,
          flashcpy_some_flash _ _ _ _ _ _ _ hpane a]
        generalize page_num * IFLASH_PAGE_SIZE = q
        generalize hP : IFLASH_PAGE_SIZE = P at hoff hlt ⊢
        split_ifs <;>
          first
          | rfl
          | (rw [getD_drop]; congr 1; omega)
          | (congr 1; omega)
          | (exfalso; omega)
      · rw [if_neg hlt]
        obtain ⟨ihr, ihf⟩ := ih (ds - ds) (by omega)
          (d.drop ds) (page_num + 1) 0 (iter + 1)
          (flashcpy flash buf (bankStart + page_num * IFLASH_PAGE_SIZE) (some d) offset
            ds (IFLASH_PAGE_SIZE - offset - ds)).1
          (flashcpy flash buf (bankStart + page_num * IFLASH_PAGE_SIZE) (some d) offset
            ds (IFLASH_PAGE_SIZE - offset - ds)).2
          (by omega)
        refine ⟨ihr, ?_⟩
        intro a
        rw [ihf a,
          show bankStart + (page_num + 1) * IFLASH_PAGE_SIZE + 0 =
            bankStart + page_num * IFLASH_PAGE_SIZE + IFLASH_PAGE_SIZE from by ring,
          flashcpy_some_flash _ _ _ _ _ _ _ hpane a]
        generalize page_num * IFLASH_PAGE_SIZE = q
        generalize hP : IFLASH_PAGE_SIZE = P at hoff hlt ⊢
        split_ifs <;>
          first
          | rfl
          | (rw [getD_drop]; congr 1; omega)
          | (congr 1; omega)
          | (exfalso; omega)

lemma write_valid_eq (lockedRes unlockRes : Nat) (cmdRes : Nat → Nat) (fws0 : Nat)
    (addr : Nat) (data : Option (List Nat)) (data_size : Nat) (er lk : Bool)
    (flash buf : Nat → Nat)
    (hval : ¬(addr ≥ IFLASH_LAST_PAGE_ADDRESS + IFLASH_PAGE_SIZE ∨ addr < IFLASH_ADDR ∨
      addr % 4 ≠ 0))
    (hlock : ¬(lockedRes ≠ 0 ∧ unlockRes ≠ SUCCESS)) :
    write lockedRes unlockRes cmdRes fws0 addr data data_size er lk flash buf =
      if (writeLoop cmdRes (if addr ≥ IFLASH1_ADDR then IFLASH1_ADDR else IFLASH0_ADDR)
            er lk data data_size
            ((addr - (if addr ≥ IFLASH1_ADDR then IFLASH1_ADDR else IFLASH0_ADDR)) /
              IFLASH_PAGE_SIZE)
            ((addr - (if addr ≥ IFLASH1_ADDR then IFLASH1_ADDR else IFLASH0_ADDR)) %
              IFLASH_PAGE_SIZE) 0 flash buf).ret = SUCCESS then
        ⟨SUCCESS,
         (writeLoop cmdRes (if addr ≥ IFLASH1_ADDR then IFLASH1_ADDR else IFLASH0_ADDR)
            er lk data data_size
            ((addr - (if addr ≥ IFLASH1_ADDR then IFLASH1_ADDR else IFLASH0_ADDR)) /
              IFLASH_PAGE_SIZE)
            ((addr - (if addr ≥ IFLASH1_ADDR then IFLASH1_ADDR else IFLASH0_ADDR)) %
              IFLASH_PAGE_SIZE) 0 flash buf).flash,
         (writeLoop cmdRes (if addr ≥ IFLASH1_ADDR then IFLASH1_ADDR else IFLASH0_ADDR)
            er lk data data_size
            ((addr - (if addr ≥ IFLASH1_ADDR then IFLASH1_ADDR else IFLASH0_ADDR)) /
              IFLASH_PAGE_SIZE)
            ((addr - (if addr ≥ IFLASH1_ADDR then IFLASH1_ADDR else IFLASH0_ADDR)) %
              IFLASH_PAGE_SIZE) 0 flash buf).buf,
         fws0,
         (writeLoop cmdRes (if addr ≥ IFLASH1_ADDR then IFLASH1_ADDR else IFLASH0_ADDR)
            er lk data data_size
            ((addr - (if addr ≥ IFLASH1_ADDR then IFLASH1_ADDR else IFLASH0_ADDR)) /
              IFLASH_PAGE_SIZE)
            ((addr - (if addr ≥ IFLASH1_ADDR then IFLASH1_ADDR else IFLASH0_ADDR)) %
              IFLASH_PAGE_SIZE) 0 flash buf).cmds⟩
      else
        ⟨(writeLoop cmdRes (if addr ≥ IFLASH1_ADDR then IFLASH1_ADDR else IFLASH0_ADDR)
            er lk data data_size
            ((addr - (if addr ≥ IFLASH1_ADDR then IFLASH1_ADDR else IFLASH0_ADDR)) /
              IFLASH_PAGE_SIZE)
            ((addr - (if addr ≥ IFLASH1_ADDR then IFLASH1_ADDR else IFLASH0_ADDR)) %
              IFLASH_PAGE_SIZE) 0 flash buf).ret,
         (writeLoop cmdRes (if addr ≥ IFLASH1_ADDR then IFLASH1_ADDR else IFLASH0_ADDR)
            er lk data data_size
            ((addr - (if addr ≥ IFLASH1_ADDR then IFLASH1_ADDR else IFLASH0_ADDR)) /
              IFLASH_PAGE_SIZE)
            ((addr - (if addr ≥ IFLASH1_ADDR then IFLASH1_ADDR else IFLASH0_ADDR)) %
              IFLASH_PAGE_SIZE) 0 flash buf).flash,
         (writeLoop cmdRes (if addr ≥ IFLASH1_ADDR then IFLASH1_ADDR else IFLASH0_ADDR)
            er lk data data_size
            ((addr - (if addr ≥ IFLASH1_ADDR then IFLASH1_ADDR else IFLASH0_ADDR)) /
              IFLASH_PAGE_SIZE)
            ((addr - (if addr ≥ IFLASH1_ADDR then IFLASH1_ADDR else IFLASH0_ADDR)) %
              IFLASH_PAGE_SIZE) 0 flash buf).buf,
         CHIP_FLASH_WAIT_STATE,
         (writeLoop cmdRes (if addr ≥ IFLASH1_ADDR then IFLASH1_ADDR else IFLASH0_ADDR)
            er lk data data_size
            ((addr - (if addr ≥ IFLASH1_ADDR then IFLASH1_ADDR else IFLASH0_ADDR)) /
              IFLASH_PAGE_SIZE)
            ((addr - (if addr ≥ IFLASH1_ADDR then IFLASH1_ADDR else IFLASH0_ADDR)) %
              IFLASH_PAGE_SIZE) 0 flash buf).cmds⟩ := by
  rw [write, if_neg hval, if_neg hlock]

/-- Claim C1: for every word-aligned in-range flash address, non-null data
buffer (here its byte list d) and size > 0, when the lock check does not
abort and every page-program command succeeds, write commits the data one
page at a time through the three-part merge copy, so that afterwards every
byte inside [addr, addr+size) holds the corresponding data byte and every
other byte — in particular the bytes of a partially written page before
and after the write window — keeps its pre-write value.  (The byte
instantiation of the write template is modelled, so the data pointer
advances by exactly write_size each iteration.) -/
theorem write_merges_and_preserves (lockedRes unlockRes : Nat) (cmdRes : Nat → Nat)
    (fws0 addr : Nat) (d : List Nat) (er lk : Bool) (flash buf : Nat → Nat)
    (hal : addr % 4 = 0) (hlo : IFLASH_ADDR ≤ addr)
    (hhi : addr + d.length ≤ IROM_ADDR) (hne : d ≠ [])
    (hcmd : ∀ i, cmdRes i = 0) (hlock : lockedRes = 0 ∨ unlockRes = SUCCESS) :
    (write lockedRes unlockRes cmdRes fws0 addr (some d) d.length er lk flash buf).ret
      = SUCCESS ∧
    ∀ a, (write lockedRes unlockRes cmdRes fws0 addr (some d) d.length er lk
        flash buf).flash a =
      if addr ≤ a ∧ a < addr + d.length then d.getD (a - addr) 0 else flash a := by
  have hlen : 0 < d.length := List.length_pos.mpr hne
  have hlo' : (0x00080000 : Nat) ≤ addr := hlo
  have hhi' : addr + d.length ≤ 0x00100000 := hhi
  have hval : ¬(addr ≥ IFLASH_LAST_PAGE_ADDRESS + IFLASH_PAGE_SIZE ∨ addr < IFLASH_ADDR ∨
      addr % 4 ≠ 0) := by
    simp only [IFLASH_LAST_PAGE_ADDRESS, IFLASH_PAGE_SIZE, IFLASH_ADDR, IFLASH0_ADDR,
      IFLASH1_ADDR, IFLASH1_SIZE, IFLASH0_SIZE]
    omega
  have hlock' : ¬(lockedRes ≠ 0 ∧ unlockRes ≠ SUCCESS) := by
    rcases hlock with h | h <;> simp [h]
  rw [write_valid_eq _ _ _ _ _ _ _ _ _ _ _ hval hlock']
  by_cases hbank : addr ≥ IFLASH1_ADDR
  · rw [if_pos hbank]
    obtain ⟨lr, lf⟩ := writeLoop_merge cmdRes hcmd IFLASH1_ADDR (by decide) er lk
      d.length d ((addr - IFLASH1_ADDR) / IFLASH_PAGE_SIZE)
      ((addr - IFLASH1_ADDR) % IFLASH_PAGE_SIZE) 0 flash buf
      (Nat.mod_lt _ (by decide))
    rw [lr, if_pos rfl]
    refine ⟨rfl, ?_⟩
    intro a
    show (writeLoop _ _ _ _ _ _ _ _ _ _ _).flash a = _
    rw [lf a]
    have hb : (IFLASH1_ADDR : Nat) = 0x000C0000 := rfl
    have hP : (IFLASH_PAGE_SIZE : Nat) = 256 := rfl
    rw [hb, hP] at *
    have hA : 0x000C0000 + (addr - 0x000C0000) / 256 * 256 + (addr - 0x000C0000) % 256 =
        addr := by
      have hge : (0x000C0000 : Nat) ≤ addr := hbank
      omega
    rw [hA]
  · rw [if_neg hbank]
    obtain ⟨lr, lf⟩ := writeLoop_merge cmdRes hcmd IFLASH0_ADDR (by decide) er lk
      d.length d ((addr - IFLASH0_ADDR) / IFLASH_PAGE_SIZE)
      ((addr - IFLASH0_ADDR) % IFLASH_PAGE_SIZE) 0 flash buf
      (Nat.mod_lt _ (by decide))
    rw [lr, if_pos rfl]
    refine ⟨rfl, ?_⟩
    intro a
    show (writeLoop _ _ _ _ _ _ _ _ _ _ _).flash a = _
    rw [lf a]
    have hb : (IFLASH0_ADDR : Nat) = 0x00080000 := rfl
    have hP : (IFLASH_PAGE_SIZE : Nat) = 256 := rfl
    rw [hb, hP] at *
    have hA : 0x00080000 + (addr - 0x00080000) / 256 * 256 + (addr - 0x00080000) % 256 =
        addr := by
      omega
    rw [hA]

/-- Witness for C1: writing bytes 1,2,3 at word-aligned address 0x00080004
of a flash image holding 9 everywhere gives 1,2,3 at 0x00080004..6 while
0x00080003 and 0x00080007 — same page, outside the window — still read
9. -/
theorem write_merges_and_preserves_at_80004 :
    (write 0 0 (fun _ => 0) 5 0x00080004 (some [1, 2, 3]) 3 true false
        (fun _ => 9) (fun _ => 0)).ret = SUCCESS ∧
    (write 0 0 (fun _ => 0) 5 0x00080004 (some [1, 2, 3]) 3 true false
        (fun _ => 9) (fun _ => 0)).flash 0x00080005 = 2 ∧
    (write 0 0 (fun _ => 0) 5 0x00080004 (some [1, 2, 3]) 3 true false
        (fun _ => 9) (fun _ => 0)).flash 0x00080003 = 9 ∧
    (write 0 0 (fun _ => 0) 5 0x00080004 (some [1, 2, 3]) 3 true false
        (fun _ => 9) (fun _ => 0)).flash 0x00080007 = 9 := by
  obtain ⟨h1, h2⟩ := write_merges_and_preserves 0 0 (fun _ => 0) 5 0x00080004 [1, 2, 3]
    true false (fun _ => 9) (fun _ => 0) (by decide) (by decide) (by decide)
    (by decide) (fun i => rfl) (Or.inl rfl)
  exact ⟨h1, (h2 0x00080005).trans (by decide), (h2 0x00080003).trans (by decide),
    (h2 0x00080007).trans (by decide)⟩

/-- Claim C3 (amended): a write call that passes argument validation saves
the wait state and forces the maximum; it restores the saved value on the
successful exit path, but when a page-program command fails it returns the
error flags with the wait state still forced to the maximum — the failure
path does not restore. -/
theorem write_wait_state_restored_only_on_success (lockedRes unlockRes : Nat)
    (cmdRes : Nat → Nat) (fws0 addr : Nat) (data : Option (List Nat)) (data_size : Nat)
    (er lk : Bool) (flash buf : Nat → Nat)
    (hval : ¬(addr ≥ IFLASH_LAST_PAGE_ADDRESS + IFLASH_PAGE_SIZE ∨ addr < IFLASH_ADDR ∨
      addr % 4 ≠ 0))
    (hlock : ¬(lockedRes ≠ 0 ∧ unlockRes ≠ SUCCESS)) :
    ((write lockedRes unlockRes cmdRes fws0 addr data data_size er lk flash buf).ret
        = SUCCESS →
      (write lockedRes unlockRes cmdRes fws0 addr data data_size er lk flash buf).fws
        = fws0) ∧
    ((write lockedRes unlockRes cmdRes fws0 addr data data_size er lk flash buf).ret
        ≠ SUCCESS →
      (write lockedRes unlockRes cmdRes fws0 addr data data_size er lk flash buf).fws
        = CHIP_FLASH_WAIT_STATE) := by
  rw [write_valid_eq _ _ _ _ _ _ _ _ _ _ _ hval hlock]
  by_cases hr : (writeLoop cmdRes (if addr ≥ IFLASH1_ADDR then IFLASH1_ADDR else
      IFLASH0_ADDR) er lk data data_size
      ((addr - (if addr ≥ IFLASH1_ADDR then IFLASH1_ADDR else IFLASH0_ADDR)) /
        IFLASH_PAGE_SIZE)
      ((addr - (if addr ≥ IFLASH1_ADDR then IFLASH1_ADDR else IFLASH0_ADDR)) %
        IFLASH_PAGE_SIZE) 0 flash buf).ret = SUCCESS
  · rw [if_pos hr]
    exact ⟨fun _ => rfl, fun h => absurd rfl h⟩
  · rw [if_neg hr]
    exact ⟨fun h => absurd h hr, fun _ => rfl⟩

/-- Witness for C3 (amended): a successful single-page write at
0x00080000 restores the saved wait-state value 7. -/
theorem write_wait_state_restored_at_success :
    (write 0 0 (fun _ => 0) 7 0x00080000 (some [1]) 1 true false
        (fun _ => 0) (fun _ => 0)).fws = 7 := by
  have h := write_wait_state_restored_only_on_success 0 0 (fun _ => 0) 7 0x00080000
    (some [1]) 1 true false (fun _ => 0) (fun _ => 0) (by decide) (by decide)
  apply h.1
  rw [write_valid_eq _ _ _ _ _ _ _ _ _ _ _ (by decide) (by decide)]
  rw [if_neg (show ¬(0x00080000 : Nat) ≥ IFLASH1_ADDR from by decide)]
  obtain ⟨lr, -⟩ := writeLoop_merge (fun _ => 0) (fun _ => rfl) IFLASH0_ADDR (by decide)
    true false 1 [1] ((0x00080000 - IFLASH0_ADDR) / IFLASH_PAGE_SIZE)
    ((0x00080000 - IFLASH0_ADDR) % IFLASH_PAGE_SIZE) 0 (fun _ => 0) (fun _ => 0)
    (Nat.mod_lt _ (by decide))
  rw [lr, if_pos rfl]

/-- Counterexample for C3: a call that passes validation (valid aligned
address 0x00080000, saved wait state 3) whose page-program command fails
with flags 6 returns those error flags while the wait-state register is
left at the forced maximum CHIP_FLASH_WAIT_STATE = 6, not restored to
3 — contradicting the claim that the saved value is restored on every
exit path. -/
theorem write_failure_leaves_max_wait_state :
    (write 0 0 (fun _ => 6) 3 0x00080000 (some [1]) 1 true false
        (fun _ => 0) (fun _ => 0)).ret = 6 ∧
    (write 0 0 (fun _ => 6) 3 0x00080000 (some [1]) 1 true false
        (fun _ => 0) (fun _ => 0)).fws = CHIP_FLASH_WAIT_STATE ∧
    CHIP_FLASH_WAIT_STATE ≠ 3 := by
  have hloop : (writeLoop (fun _ => 6) IFLASH0_ADDR true false (some [1]) 1
      ((0x00080000 - IFLASH0_ADDR) / IFLASH_PAGE_SIZE)
      ((0x00080000 - IFLASH0_ADDR) % IFLASH_PAGE_SIZE) 0 (fun _ => 0)
      (fun _ => 0)).ret = 6 := by
    rw [writeLoop, if_neg (show (1 : Nat) ≠ 0 from by decide),
      dif_neg (show ¬IFLASH_PAGE_SIZE ≤ (0x00080000 - IFLASH0_ADDR) % IFLASH_PAGE_SIZE
        from by decide)]
    rw [if_pos (show (fun _ : Nat => (6 : Nat)) 0 ≠ 0 from by decide)]
  rw [write_valid_eq _ _ _ _ _ _ _ _ _ _ _ (by decide) (by decide)]
  rw [if_neg (show ¬(0x00080000 : Nat) ≥ IFLASH1_ADDR from by decide)]
  rw [hloop, if_neg (show (6 : Nat) ≠ SUCCESS from by decide)]
  exact ⟨rfl, rfl, by decide⟩

/-! ### Null-data behaviour of write (C4)

  write never checks data for NULL: only the address is validated, and the
  NULL check inside flashcpy merely skips the copy — its returned pointer
  is discarded.  With a NULL data pointer and a valid address the call
  still consults the lock state and issues page-programming commands.
  writeLoop_none_single evaluates one loop iteration with a NULL buffer;
  the theorems below are restricted to writes that fit in a single page,
  because from the second iteration on, the source would advance the NULL
  pointer and copy from near-null addresses — behaviour outside this
  model. -/

lemma writeLoop_none_single (cmdRes : Nat → Nat) (iter : Nat) (hc : cmdRes iter = 0)
    (bankStart : Nat) (er lk : Bool) (ds pn off : Nat) (h0 : 0 < ds)
    (hoff : off < IFLASH_PAGE_SIZE) (hone : ds ≤ IFLASH_PAGE_SIZE - off)
    (flash buf : Nat → Nat) :
    writeLoop cmdRes bankStart er lk none ds pn off iter flash buf =
      ⟨SUCCESS, flash, buf, [(writeCmdCode er lk, pn)]⟩ := by
  rw [writeLoop, if_neg (show ¬ds = 0 from by omega),
    dif_neg (show ¬IFLASH_PAGE_SIZE ≤ off from by omega),
    if_neg (show ¬(IFLASH_PAGE_SIZE - off < ds) from by omega)]
  simp only [hc, ne_eq, eq_self_iff_true, not_true_eq_false, if_false,
    Option.map_none', flashcpy]
  rw [writeLoop, if_pos (show ds - ds = 0 from by omega)]

/-- Claim C4 (amended): write does not validate the data pointer.  For a
NULL data buffer, a valid word-aligned address and a positive size within
the first page, when the lock check does not block and the programming
command succeeds, write returns SUCCESS — not the InvalidArgument
sentinel — and issues a page-programming command (hardware access), while
flashcpy's internal NULL check only makes the copy a no-op, leaving the
flash content unchanged. -/
theorem write_null_data_not_validated (lockedRes unlockRes : Nat) (cmdRes : Nat → Nat)
    (fws0 addr ds : Nat) (er lk : Bool) (flash buf : Nat → Nat)
    (hal : addr % 4 = 0) (hlo : IFLASH_ADDR ≤ addr) (hhi : addr < IROM_ADDR)
    (hds : 0 < ds) (hone : addr % IFLASH_PAGE_SIZE + ds ≤ IFLASH_PAGE_SIZE)
    (hcmd : ∀ i, cmdRes i = 0) (hlock : lockedRes = 0 ∨ unlockRes = SUCCESS) :
    (write lockedRes unlockRes cmdRes fws0 addr none ds er lk flash buf).ret = SUCCESS ∧
    (write lockedRes unlockRes cmdRes fws0 addr none ds er lk flash buf).ret ≠ INVALID ∧
    (write lockedRes unlockRes cmdRes fws0 addr none ds er lk flash buf).flash = flash ∧
    (write lockedRes unlockRes cmdRes fws0 addr none ds er lk flash buf).cmds ≠ [] := by
  have hlo' : (0x00080000 : Nat) ≤ addr := hlo
  have hhi' : addr < 0x00100000 := hhi
  have hone' : addr % 256 + ds ≤ 256 := hone
  have hval : ¬(addr ≥ IFLASH_LAST_PAGE_ADDRESS + IFLASH_PAGE_SIZE ∨ addr < IFLASH_ADDR ∨
      addr % 4 ≠ 0) := by
    simp only [IFLASH_LAST_PAGE_ADDRESS, IFLASH_PAGE_SIZE, IFLASH_ADDR, IFLASH0_ADDR,
      IFLASH1_ADDR, IFLASH1_SIZE, IFLASH0_SIZE]
    omega
  have hlock' : ¬(lockedRes ≠ 0 ∧ unlockRes ≠ SUCCESS) := by
    rcases hlock with h | h <;> simp [h]
  rw [write_valid_eq _ _ _ _ _ _ _ _ _ _ _ hval hlock']
  by_cases hbank : addr ≥ IFLASH1_ADDR
  · have hb : (IFLASH1_ADDR : Nat) = 0x000C0000 := rfl
    have hbank' : (0x000C0000 : Nat) ≤ addr := hb ▸ hbank
    rw [if_pos hbank]
    rw [writeLoop_none_single cmdRes 0 (hcmd 0) IFLASH1_ADDR er lk ds _ _ hds
      (Nat.mod_lt _ (by decide))
      (by
        show ds ≤ IFLASH_PAGE_SIZE - (addr - IFLASH1_ADDR) % IFLASH_PAGE_SIZE
        simp only [IFLASH_PAGE_SIZE, hb]
        omega)
      flash buf]
    rw [if_pos rfl]
    exact ⟨rfl, (by decide : (SUCCESS : Nat) ≠ INVALID), rfl, List.cons_ne_nil _ _⟩
  · have hb : (IFLASH0_ADDR : Nat) = 0x00080000 := rfl
    have hbank' : ¬(0x000C0000 : Nat) ≤ addr := fun h => hbank h
    rw [if_neg hbank]
    rw [writeLoop_none_single cmdRes 0 (hcmd 0) IFLASH0_ADDR er lk ds _ _ hds
      (Nat.mod_lt _ (by decide))
      (by
        show ds ≤ IFLASH_PAGE_SIZE - (addr - IFLASH0_ADDR) % IFLASH_PAGE_SIZE
        simp only [IFLASH_PAGE_SIZE, hb]
        omega)
      flash buf]
    rw [if_pos rfl]
    exact ⟨rfl, (by decide : (SUCCESS : Nat) ≠ INVALID), rfl, List.cons_ne_nil _ _⟩

/-- Witness for C4 (amended): a NULL-data write of 8 bytes at 0x00080010
succeeds, leaves the flash image untouched and issues a command. -/
theorem write_null_data_not_validated_at_80010 :
    (write 0 0 (fun _ => 0) 2 0x00080010 none 8 true false
        (fun _ => 1) (fun _ => 0)).ret = SUCCESS ∧
    (write 0 0 (fun _ => 0) 2 0x00080010 none 8 true false
        (fun _ => 1) (fun _ => 0)).flash = (fun _ => 1) ∧
    (write 0 0 (fun _ => 0) 2 0x00080010 none 8 true false
        (fun _ => 1) (fun _ => 0)).cmds ≠ [] := by
  obtain ⟨h1, -, h3, h4⟩ := write_null_data_not_validated 0 0 (fun _ => 0) 2 0x00080010 8
    true false (fun _ => 1) (fun _ => 0) (by decide) (by decide) (by decide)
    (by decide) (by decide) (fun i => rfl) (Or.inl rfl)
  exact ⟨h1, h3, h4⟩

/-- Counterexample for C4: write with a NULL data buffer and the valid
aligned address 0x00080000 does not return the InvalidArgument sentinel —
it returns SUCCESS — and it issues the erase-and-write-page command for
page 0, so hardware is accessed. -/
theorem write_null_data_returns_success :
    (write 0 1 (fun _ => 0) 5 0x00080000 none 4 true false
        (fun _ => 0) (fun _ => 0)).ret = SUCCESS ∧
    (write 0 1 (fun _ => 0) 5 0x00080000 none 4 true false
        (fun _ => 0) (fun _ => 0)).ret ≠ INVALID ∧
    (write 0 1 (fun _ => 0) 5 0x00080000 none 4 true false
        (fun _ => 0) (fun _ => 0)).cmds = [(EFC_FCMD_EWP, 0)] := by
  rw [write_valid_eq _ _ _ _ _ _ _ _ _ _ _ (by decide) (by decide)]
  rw [if_neg (show ¬(0x00080000 : Nat) ≥ IFLASH1_ADDR from by decide)]
  rw [writeLoop_none_single (fun _ => 0) 0 rfl IFLASH0_ADDR true false 4 _ _
    (by decide) (by decide) (by decide) (fun _ => 0) (fun _ => 0)]
  rw [if_pos rfl]
  exact ⟨rfl, by decide, by decide⟩

end FlashTools
